import Mathlib

/-!
Shallow embedding of the devfile resolution and override-merge engine.

The Go sources embedded here are the parser entry points (`parseDevfile`,
`Parse`, `ParseRawDevfile`, `ParseFromURL`, `ParseFromData`), the flattening
step `parseParentAndPlugin`, and the generator helper `addSyncFolder`.
External collaborators (network fetch, schema validation, JSON decoding) are
modelled as an explicit environment of functions; the override applier and
content merger live in the external devfile/api module, so they are modelled
from the specification's contracts.  Recursion through parent/plugin fetches
is bounded by an explicit fuel parameter: a result of `none` models a run
whose recursion never bottoms out.
-/

namespace Devfile

/-- Errors returned by Go functions are modelled as strings. -/
abbrev GoErr := String

/-- Modelled from the spec: an override patch either replaces the payload of
the named element or deletes it (the spec's OverrideSet carries "replacement
or deletion semantics" keyed by element id; the concrete Go types live in the
external devfile/api module). -/
inductive OverrideOp where
  | replace (newData : String)
  | delete
deriving DecidableEq

/-- Modelled from the spec: an OverrideSet is a collection of patches keyed by
the id of the target element (component name, command id, project name).  It
stands for the Go types v1.ParentOverrides / v1.PluginOverrides, which are
outside the repository sources. -/
structure OverrideSet where
  components : List (String × OverrideOp)
  commands   : List (String × OverrideOp)
  projects   : List (String × OverrideOp)
deriving DecidableEq

/-- The Go zero value of an override set. -/
def OverrideSet.empty : OverrideSet := ⟨[], [], []⟩

/-- The plugin variant payload of a component: a reference to an external
document by uri (or registry id, which `parseParentAndPlugin` ignores) plus
the plugin's own overrides.  Stands for v1.PluginComponent. -/
structure PluginComponent where
  id  : String
  uri : String
  pluginOverrides : OverrideSet
deriving DecidableEq

/-- The Go zero value `v1.PluginComponent{}`. -/
def PluginComponent.empty : PluginComponent := ⟨"", "", OverrideSet.empty⟩

/-- A component: its name, the optional Plugin-variant payload (`none` stands
for the Go nil pointer), and the remaining variant payload (container, volume,
...) collapsed into one opaque field. -/
structure Component where
  name   : String
  plugin : Option PluginComponent
  data   : String
deriving DecidableEq

/-- A command, identified by its id. -/
structure Command where
  id   : String
  data : String
deriving DecidableEq

/-- A project: its name, its optional clonePath ("" = absent), and the rest of
its payload. -/
structure Project where
  name      : String
  clonePath : String
  data      : String
deriving DecidableEq

/-- The mergeable workspace content: components, commands and projects.
Stands for v1.DevWorkspaceTemplateSpecContent. -/
structure DevWorkspaceTemplateSpecContent where
  components : List Component
  commands   : List Command
  projects   : List Project
deriving DecidableEq

/-- The Go zero value `v1.DevWorkspaceTemplateSpecContent{}`. -/
def DevWorkspaceTemplateSpecContent.empty : DevWorkspaceTemplateSpecContent := ⟨[], [], []⟩

/-- The parent reference of a document: a uri plus overrides.  Stands for
v1.Parent. -/
structure Parent where
  uri : String
  parentOverrides : OverrideSet
deriving DecidableEq

/-- The Go zero value `v1.Parent{}`. -/
def Parent.empty : Parent := ⟨"", OverrideSet.empty⟩

/-- The decoded devfile data: the optional parent reference plus the workspace
content.  `GetParent`, `GetDevfileWorkspace`, `GetComponents`, `SetParent` and
`SetDevfileWorkspace` of the Go data interface become field accesses and
functional updates. -/
structure DevfileData where
  parent    : Option Parent
  workspace : DevWorkspaceTemplateSpecContent
deriving DecidableEq

/-- Modelled from the spec: the zero value of a document handle's data.  The
Go interface value is nil there; per the spec's edge-case policy the
nil-content path yields an empty WorkspaceContent, so the zero data carries no
parent and empty content. -/
def DevfileData.empty : DevfileData := ⟨none, DevWorkspaceTemplateSpecContent.empty⟩

/-- The parsing context: the fields `parseDevfile` reads from it. -/
structure DevfileCtx where
  apiVersion     : String
  devfileContent : String
deriving DecidableEq

/-- The Go zero value of a context. -/
def DevfileCtx.empty : DevfileCtx := ⟨"", ""⟩

/-- The document handle: context plus decoded data.  Stands for the Go
DevfileObj, whose declaration is outside the repository sources; modelled from
the spec's "Document Handle (data-only)". -/
structure DevfileObj where
  ctx  : DevfileCtx
  data : DevfileData
deriving DecidableEq

/-- The Go zero value `DevfileObj{}`. -/
def DevfileObj.empty : DevfileObj := ⟨DevfileCtx.empty, DevfileData.empty⟩

/-- The external collaborators consumed by the parser: context population from
a path, a url or raw bytes, context validation, versioned data construction,
and JSON unmarshalling.  Each is an arbitrary function, so theorems quantify
over every possible behaviour of the environment. -/
structure Env where
  populate        : String → Except GoErr DevfileCtx
  populateFromURL : String → Except GoErr DevfileCtx
  populateFromRaw : String → Except GoErr DevfileCtx
  validate        : DevfileCtx → Option GoErr
  newDevfileData  : String → Except GoErr DevfileData
  unmarshal       : String → DevfileData → Except GoErr DevfileData

/-- Replace a component's payload, keeping its name. -/
def Component.withData (c : Component) (s : String) : Component := { c with data := s }

/-- Replace a command's payload, keeping its id. -/
def Command.withData (c : Command) (s : String) : Command := { c with data := s }

/-- Replace a project's payload, keeping its name. -/
def Project.withData (p : Project) (s : String) : Project := { p with data := s }

/-- Modelled from the spec: apply a list of patches to one element list.
Every patch key must match an existing element; otherwise application fails
naming the unmatched key (the Override Applier's contract; the implementation,
devfile/api's OverrideDevWorkspaceTemplateSpec, is outside the repository
sources). -/
def applyPatches (nameOf : α → String) (edit : α → String → α) :
    List α → List (String × OverrideOp) → Except GoErr (List α)
  | content, [] => .ok content
  | content, (key, op) :: rest =>
    if content.any (fun x => nameOf x == key) then
      let content' :=
        match op with
        | .replace newData =>
            content.map (fun x => if nameOf x == key then edit x newData else x)
        | .delete => content.filter (fun x => nameOf x != key)
      applyPatches nameOf edit content' rest
    else
      .error ("override key " ++ key ++ " does not match any element")

/-- Modelled from the spec: the Override Applier applied to a whole workspace
content, patching components by name, commands by id and projects by name. -/
def OverrideDevWorkspaceTemplateSpec (content : DevWorkspaceTemplateSpecContent)
    (ov : OverrideSet) : Except GoErr DevWorkspaceTemplateSpecContent :=
  match applyPatches Component.name Component.withData content.components ov.components with
  | .error e => .error e
  | .ok cs =>
    match applyPatches Command.id Command.withData content.commands ov.commands with
    | .error e => .error e
    | .ok cmds =>
      match applyPatches Project.name Project.withData content.projects ov.projects with
      | .error e => .error e
      | .ok ps => .ok ⟨cs, cmds, ps⟩

/-- Modelled from the spec: insert one element into the accumulated merge
result.  An exact duplicate (same name, identical content) is skipped; a
same-name element with different content is a merge conflict. -/
def insertItem [DecidableEq α] (nameOf : α → String) (acc : List α) (x : α) :
    Except GoErr (List α) :=
  match acc.find? (fun y => nameOf y == nameOf x) with
  | some y => if y = x then .ok acc else .error ("conflicting definition of " ++ nameOf x)
  | none => .ok (acc ++ [x])

/-- Fold `insertItem` over a list of new elements. -/
def insertAll [DecidableEq α] (nameOf : α → String) :
    List α → List α → Except GoErr (List α)
  | acc, [] => .ok acc
  | acc, x :: xs =>
    match insertItem nameOf acc x with
    | .error e => .error e
    | .ok acc' => insertAll nameOf acc' xs

/-- The layer order fed to the merge: inherited parent content first, then the
plugin contents in order, then the local content. -/
def mergeLayers (localC parentC : DevWorkspaceTemplateSpecContent)
    (plugins : List DevWorkspaceTemplateSpecContent)
    (f : DevWorkspaceTemplateSpecContent → List α) : List α :=
  f parentC ++ (plugins.map f).flatten ++ f localC

/-- Modelled from the spec: the Content Merger.  It combines the local
content with the flattened parent and plugin contents; exact duplicates are
deduplicated, same-name elements with different content surface a merge error
(devfile/api's MergeDevWorkspaceTemplateSpec is outside the repository
sources). -/
def MergeDevWorkspaceTemplateSpec (localC parentC : DevWorkspaceTemplateSpecContent)
    (plugins : List DevWorkspaceTemplateSpecContent) :
    Except GoErr DevWorkspaceTemplateSpecContent :=
  match insertAll Component.name [] (mergeLayers localC parentC plugins (fun c => c.components)) with
  | .error e => .error e
  | .ok cs =>
    match insertAll Command.id [] (mergeLayers localC parentC plugins (fun c => c.commands)) with
    | .error e => .error e
    | .ok cmds =>
      match insertAll Project.name [] (mergeLayers localC parentC plugins (fun c => c.projects)) with
      | .error e => .error e
      | .ok ps => .ok ⟨cs, cmds, ps⟩

/-! ## Generator layer: sync folder computation (`addSyncFolder`) -/

/-- Substring test on character lists, mirroring Go's strings.Contains. -/
def containsSeg (pat : List Char) : List Char → Bool
  | [] => pat.isEmpty
  | c :: rest => pat.isPrefixOf (c :: rest) || containsSeg pat rest

/-- Go's strings.Contains. -/
def goStringsContains (s sub : String) : Bool := containsSeg sub.toList s.toList

/-- Go's strings.HasPrefix. -/
def goHasPrefix (s pre : String) : Bool := pre.toList.isPrefixOf s.toList

/-- Split a character list on the slash separator, keeping empty segments
(Go's strings.Split on "/"). -/
def splitOnSlash : List Char → List (List Char)
  | [] => [[]]
  | c :: rest =>
    if c = '/' then [] :: splitOnSlash rest
    else
      match splitOnSlash rest with
      | [] => [[c]]
      | s :: ss => (c :: s) :: ss

/-- Rejoin segments with the slash separator. -/
def joinSlash : List (List Char) → List Char
  | [] => []
  | [s] => s
  | s :: ss => s ++ '/' :: joinSlash ss

/-- Go's path.Clean on slash-separated paths: drop empty and "." segments,
resolve ".." lexically, keep a leading slash. -/
def goPathClean (p : String) : String :=
  if p = "" then "."
  else
    let rooted := goHasPrefix p "/"
    let segs := splitOnSlash p.toList
    let out := segs.foldl (fun acc seg =>
      if seg = [] ∨ seg = ['.'] then acc
      else if seg = ['.', '.'] then
        match acc with
        | [] => if rooted then [] else [['.', '.']]
        | a :: rest => if a = ['.', '.'] then ['.', '.'] :: a :: rest else rest
      else seg :: acc) ([] : List (List Char))
    let body := joinSlash out.reverse
    if rooted then String.mk ('/' :: body)
    else if body = [] then "." else String.mk body

/-- Go's filepath.Join (with filepath.ToSlash the identity on a slash-separated
platform): join the non-empty elements with "/" and clean the result. -/
def goFilepathJoin (elems : List String) : String :=
  let ne := elems.filter (fun s => s != "")
  if ne.isEmpty then "" else goPathClean (String.intercalate "/" ne)

/-- Modelled from the spec: the environment variable naming the project source
sync path (the constants file declaring EnvProjectsSrc is outside the
repository sources; the source comments name PROJECTS_ROOT and
PROJECT_SOURCE). -/
def EnvProjectsSrc : String := "PROJECT_SOURCE"

/-- A container environment variable. -/
structure EnvVar where
  name  : String
  value : String
deriving DecidableEq

/-- The slice of a Kubernetes container that `addSyncFolder` touches: its
environment variables. -/
structure Container where
  env : List EnvVar
deriving DecidableEq

/-- The sync folder computation of the generator layer: with no projects the
source syncs to the source volume path; otherwise the first project's
clonePath is validated (relative, no "..") and determines the sync path, which
is appended to the container environment as EnvProjectsSrc. -/
def addSyncFolder (container : Container) (sourceVolumePath : String)
    (projects : List Project) : Except GoErr Container :=
  match projects with
  | [] => .ok { container with env := container.env ++ [⟨EnvProjectsSrc, sourceVolumePath⟩] }
  | project :: _ =>
    let step : Except GoErr String :=
      if project.clonePath != "" then
        if goHasPrefix project.clonePath "/" then
          .error ("the clonePath " ++ project.clonePath ++ " in the devfile project " ++
            project.name ++ " must be a relative path")
        else if goStringsContains project.clonePath ".." then
          .error ("the clonePath " ++ project.clonePath ++ " in the devfile project " ++
            project.name ++
            " cannot escape the value defined by $PROJECTS_ROOT. Please avoid using \"..\" in clonePath")
        else
          .ok (goFilepathJoin [sourceVolumePath, project.clonePath])
      else
        .ok (goFilepathJoin [sourceVolumePath, project.name])
    match step with
    | .error e => .error e
    | .ok syncFolder =>
      .ok { container with env := container.env ++ [⟨EnvProjectsSrc, syncFolder⟩] }

/-! ## The parse pipeline

The Go engine recurses through parent/plugin fetches with no depth bound.
The embedding factors that recursion out: each pipeline function is written
against an abstract `fetch` capability (what `ParseFromURL` provides), and
`ParseFromURL` itself ties the knot with an explicit fuel bound.  A `none`
result models a run whose recursion never bottoms out; the named wrappers at
the end restore the exact Go signatures. -/

/-- The result of fetching and fully parsing a referenced document: either no
answer within the recursion budget (`none`), or the document handle paired
with the Go error value. -/
abbrev FetchFn := String → Option (DevfileObj × Option GoErr)

/-- The plugin loop of `parseParentAndPlugin`: for each component whose plugin
variant is set and non-default, fetch the referenced document when its uri is
non-empty (a zero document handle otherwise), apply the plugin's overrides
when non-default, and collect the contents in declaration order. -/
def pluginLoopWith (fetch : FetchFn) :
    List Component → Option (Except GoErr (List DevWorkspaceTemplateSpecContent))
  | [] => some (.ok [])
  | component :: rest =>
    match component.plugin with
    | none => pluginLoopWith fetch rest
    | some plugin =>
      if plugin ≠ PluginComponent.empty then
        let fetched : Option (Except GoErr DevfileObj) :=
          if plugin.uri ≠ "" then
            match fetch plugin.uri with
            | none => none
            | some (_, some e) => some (.error e)
            | some (pluginData, none) => some (.ok pluginData)
          else some (.ok DevfileObj.empty)
        match fetched with
        | none => none
        | some (.error e) => some (.error e)
        | some (.ok pluginData) =>
          let pluginWorkspaceContent := pluginData.data.workspace
          let resultStep : Except GoErr DevWorkspaceTemplateSpecContent :=
            if plugin.pluginOverrides ≠ OverrideSet.empty then
              OverrideDevWorkspaceTemplateSpec pluginWorkspaceContent plugin.pluginOverrides
            else .ok pluginWorkspaceContent
          match resultStep with
          | .error e => some (.error e)
          | .ok result =>
            match pluginLoopWith fetch rest with
            | none => none
            | some (.error e) => some (.error e)
            | some (.ok tail) => some (.ok (result :: tail))
      else pluginLoopWith fetch rest

/-- The flattening step: resolve the parent reference (fetch, then apply the
parent overrides when non-default), resolve each plugin component via the
plugin loop, merge parent content, plugin contents and local content, then
write the merged content and clear the parent.  Returns the document data
after execution together with the error, mirroring the in-place mutation of
the Go code: every error exit happens before the writes, the two writes
happen after the merge succeeds. -/
def parseParentAndPluginWith (fetch : FetchFn) (d : DevfileObj) :
    Option (DevfileData × Option GoErr) :=
  let parentStep : Option (Except GoErr DevWorkspaceTemplateSpecContent) :=
    match d.data.parent with
    | none => some (.ok DevWorkspaceTemplateSpecContent.empty)
    | some parent =>
      if parent ≠ Parent.empty ∧ parent.uri ≠ "" then
        match fetch parent.uri with
        | none => none
        | some (_, some e) => some (.error e)
        | some (parentData, none) =>
          let parentWorkspaceContent := parentData.data.workspace
          if parent.parentOverrides ≠ OverrideSet.empty then
            match OverrideDevWorkspaceTemplateSpec parentWorkspaceContent
                parent.parentOverrides with
            | .error e => some (.error e)
            | .ok fp => some (.ok fp)
          else some (.ok parentWorkspaceContent)
      else some (.ok DevWorkspaceTemplateSpecContent.empty)
  match parentStep with
  | none => none
  | some (.error e) => some (d.data, some e)
  | some (.ok flattenedParent) =>
    match pluginLoopWith fetch d.data.workspace.components with
    | none => none
    | some (.error e) => some (d.data, some e)
    | some (.ok plugins) =>
      match MergeDevWorkspaceTemplateSpec d.data.workspace flattenedParent plugins with
      | .error e => some (d.data, some e)
      | .ok mergedContent => some (⟨none, mergedContent⟩, none)

/-- The parse orchestrator: validate the context, build the versioned data
object, unmarshal the content into it, and — when `flattenedDevfile` is set —
run the flattening step, returning the Go zero `DevfileObj{}` together with
the error when flattening fails. -/
def parseDevfileWith (env : Env) (fetch : FetchFn) (d : DevfileObj)
    (flattenedDevfile : Bool) : Option (DevfileObj × Option GoErr) :=
  match env.validate d.ctx with
  | some e => some (d, some e)
  | none =>
    match env.newDevfileData d.ctx.apiVersion with
    | .error e => some (d, some e)
    | .ok data0 =>
      match env.unmarshal d.ctx.devfileContent data0 with
      | .error e => some ({ d with data := data0 },
          some ("failed to decode devfile content: " ++ e))
      | .ok dataU =>
        if flattenedDevfile then
          match parseParentAndPluginWith fetch { d with data := dataU } with
          | none => none
          | some (_, some e) => some (DevfileObj.empty, some e)
          | some (data2, none) => some ({ d with data := data2 }, none)
        else
          some ({ d with data := dataU }, none)

/-- Fetch a document from a url and run the full parse pipeline on it with
flattening on.  This is where the recursion spends fuel. -/
def ParseFromURL : Nat → Env → String → Option (DevfileObj × Option GoErr)
  | 0, _, _ => none
  | fuel + 1, env, url =>
    match env.populateFromURL url with
    | .error e => some (DevfileObj.empty, some e)
    | .ok ctx => parseDevfileWith env (ParseFromURL fuel env) ⟨ctx, DevfileData.empty⟩ true

/-- The Go `parseDevfile`, with the recursion budget made explicit. -/
def parseDevfile (fuel : Nat) (env : Env) (d : DevfileObj) (flattenedDevfile : Bool) :
    Option (DevfileObj × Option GoErr) :=
  parseDevfileWith env (ParseFromURL fuel env) d flattenedDevfile

/-- The Go `parseParentAndPlugin`, with the recursion budget made explicit. -/
def parseParentAndPlugin (fuel : Nat) (env : Env) (d : DevfileObj) :
    Option (DevfileData × Option GoErr) :=
  parseParentAndPluginWith (ParseFromURL fuel env) d

/-- The plugin loop of the Go `parseParentAndPlugin`, with the recursion
budget made explicit. -/
def pluginLoop (fuel : Nat) (env : Env) (cs : List Component) :
    Option (Except GoErr (List DevWorkspaceTemplateSpecContent)) :=
  pluginLoopWith (ParseFromURL fuel env) cs

/-- Parse a devfile from a local path, with flattening. -/
def Parse (fuel : Nat) (env : Env) (path : String) : Option (DevfileObj × Option GoErr) :=
  match env.populate path with
  | .error e => some (DevfileObj.empty, some e)
  | .ok ctx => parseDevfile fuel env ⟨ctx, DevfileData.empty⟩ true

/-- Parse a devfile from a local path in raw mode: no overriding and no
merging (`flattenedDevfile` is false). -/
def ParseRawDevfile (fuel : Nat) (env : Env) (path : String) :
    Option (DevfileObj × Option GoErr) :=
  match env.populate path with
  | .error e => some (DevfileObj.empty, some e)
  | .ok ctx => parseDevfile fuel env ⟨ctx, DevfileData.empty⟩ false

/-- Parse a devfile from in-memory bytes, with flattening.  The two context
steps (setting the content from bytes and populating from raw) are collapsed
into the environment's `populateFromRaw`. -/
def ParseFromData (fuel : Nat) (env : Env) (bytes : String) :
    Option (DevfileObj × Option GoErr) :=
  match env.populateFromRaw bytes with
  | .error e => some (DevfileObj.empty, some e)
  | .ok ctx => parseDevfile fuel env ⟨ctx, DevfileData.empty⟩ true

/-! ## Specification-side definitions

These follow the spec's wording and are compared against the embedded code in
the refinement and termination theorems. -/

/-- The non-default plugin payloads of a component list, in declaration
order (the spec's "every component whose variant is Plugin and is
non-default"). -/
def activePlugins (cs : List Component) : List PluginComponent :=
  cs.filterMap (fun c =>
    match c.plugin with
    | some p => if p = PluginComponent.empty then none else some p
    | none => none)

/-- Resolution of a single plugin reference, following the spec's step 2:
fetch and fully resolve the referenced document when the uri is non-empty (a
zero document handle otherwise), then apply the plugin's own overrides when
present. -/
def resolvePluginRef (fetch : FetchFn) (p : PluginComponent) :
    Option (Except GoErr DevWorkspaceTemplateSpecContent) :=
  let fetched : Option (Except GoErr DevfileObj) :=
    if p.uri ≠ "" then
      match fetch p.uri with
      | none => none
      | some (_, some e) => some (.error e)
      | some (pluginData, none) => some (.ok pluginData)
    else some (.ok DevfileObj.empty)
  match fetched with
  | none => none
  | some (.error e) => some (.error e)
  | some (.ok pluginData) =>
    some (if p.pluginOverrides ≠ OverrideSet.empty then
        OverrideDevWorkspaceTemplateSpec pluginData.data.workspace p.pluginOverrides
      else .ok pluginData.data.workspace)

/-- Declaration-order collection of the resolved plugin contents (the spec's
ordered `pluginContents` list), aborting on the first failure. -/
def specPluginLayers (fetch : FetchFn) :
    List PluginComponent → Option (Except GoErr (List DevWorkspaceTemplateSpecContent))
  | [] => some (.ok [])
  | p :: ps =>
    match resolvePluginRef fetch p with
    | none => none
    | some (.error e) => some (.error e)
    | some (.ok content) =>
      match specPluginLayers fetch ps with
      | none => none
      | some (.error e) => some (.error e)
      | some (.ok tail) => some (.ok (content :: tail))

/-- No two same-named elements of `l` disagree on content (exact duplicates
are allowed). -/
def NamesCompatible (nameOf : α → String) (l : List α) : Prop :=
  ∀ a ∈ l, ∀ b ∈ l, nameOf a = nameOf b → a = b

/-- All element names of `l` are pairwise distinct. -/
def NamesDistinct (nameOf : α → String) (l : List α) : Prop :=
  l.Pairwise (fun a b => nameOf a ≠ nameOf b)

/-- The uri the flattening step fetches for the parent reference, if any. -/
def parentRefs (data : DevfileData) : List String :=
  match data.parent with
  | none => []
  | some p => if p ≠ Parent.empty ∧ p.uri ≠ "" then [p.uri] else []

/-- The uris the plugin loop fetches, in declaration order. -/
def pluginRefs (cs : List Component) : List String :=
  cs.filterMap (fun c =>
    match c.plugin with
    | some p => if p ≠ PluginComponent.empty ∧ p.uri ≠ "" then some p.uri else none
    | none => none)

/-- All uris the flattening of `data` fetches directly. -/
def refURIs (data : DevfileData) : List String :=
  parentRefs data ++ pluginRefs data.workspace.components

/-- The fuel-free part of fetching one referenced document: populate the
context from the url, validate it and decode the data.  `none` when any step
fails (such failures terminate the engine immediately, so they never threaten
termination). -/
def fetchDecode (env : Env) (u : String) : Option DevfileData :=
  match env.populateFromURL u with
  | .error _ => none
  | .ok ctx =>
    match env.validate ctx with
    | some _ => none
    | none =>
      match env.newDevfileData ctx.apiVersion with
      | .error _ => none
      | .ok d0 =>
        match env.unmarshal ctx.devfileContent d0 with
        | .error _ => none
        | .ok du => some du

/-- The document's reference graph is acyclic with depth below `n`: every
document reachable through fetchable reference uris resolves within `n - 1`
steps. -/
inductive ResolvesWithin (env : Env) : DevfileData → Nat → Prop where
  | step {data : DevfileData} {n : Nat} :
      (∀ u ∈ refURIs data, ∀ du, fetchDecode env u = some du → ResolvesWithin env du n) →
      ResolvesWithin env data (n + 1)

/-! ## Concrete fixtures used by witnesses and counterexamples -/

/-- An environment with no reachable documents and permissive local steps. -/
def env0 : Env where
  populate := fun _ => .error "no file"
  populateFromURL := fun _ => .error "no network"
  populateFromRaw := fun _ => .error "no raw content"
  validate := fun _ => none
  newDevfileData := fun _ => .ok DevfileData.empty
  unmarshal := fun _ d => .ok d

/-- An environment hosting one plugin document at uri `Q` declaring a single
component `b`. -/
def envQ : Env where
  populate := fun _ => .error "no file"
  populateFromURL := fun u =>
    if u = "Q" then .ok ⟨"2.0.0", "Qcontent"⟩ else .error "unreachable"
  populateFromRaw := fun _ => .error "no raw content"
  validate := fun _ => none
  newDevfileData := fun _ => .ok DevfileData.empty
  unmarshal := fun content d =>
    if content = "Qcontent" then .ok ⟨none, ⟨[⟨"b", none, "bdata"⟩], [], []⟩⟩ else .ok d

/-- An environment where every fetch fails but decoding the local document
yields a parent reference to uri `P`. -/
def envP : Env where
  populate := fun _ => .error "no file"
  populateFromURL := fun _ => .error "fetch failed"
  populateFromRaw := fun _ => .error "no raw content"
  validate := fun _ => none
  newDevfileData := fun _ => .ok DevfileData.empty
  unmarshal := fun content d =>
    if content = "withparent" then
      .ok ⟨some ⟨"P", OverrideSet.empty⟩, DevWorkspaceTemplateSpecContent.empty⟩
    else .ok d

/-- A document whose parent reference points back at its own uri `A`. -/
def cycData : DevfileData :=
  ⟨some ⟨"A", OverrideSet.empty⟩, DevWorkspaceTemplateSpecContent.empty⟩

/-- An environment where uri `A` serves a document whose parent is uri `A`
again: a reference cycle. -/
def cycEnv : Env where
  populate := fun _ => .error "no file"
  populateFromURL := fun u =>
    if u = "A" then .ok ⟨"2.0.0", "cyc"⟩ else .error "unreachable"
  populateFromRaw := fun _ => .error "no raw content"
  validate := fun _ => none
  newDevfileData := fun _ => .ok DevfileData.empty
  unmarshal := fun content d => if content = "cyc" then .ok cycData else .ok d

/-- A local document with a single plugin component `x` referencing uri `Q`. -/
def d1 : DevfileObj :=
  ⟨DevfileCtx.empty, ⟨none, ⟨[⟨"x", some ⟨"", "Q", OverrideSet.empty⟩, ""⟩], [], []⟩⟩⟩

/-- The data `d1` flattens to under `envQ`: the plugin's component `b` merged
in, with the plugin component `x` still present. -/
def flatData1 : DevfileData :=
  ⟨none, ⟨[⟨"b", none, "bdata"⟩, ⟨"x", some ⟨"", "Q", OverrideSet.empty⟩, ""⟩], [], []⟩⟩

/-- A local document with a non-default plugin component whose uri is empty
but which carries an override for a non-existent component `ghost`. -/
def d3 : DevfileObj :=
  ⟨DevfileCtx.empty,
    ⟨none, ⟨[⟨"x", some ⟨"", "", ⟨[("ghost", .replace "z")], [], []⟩⟩, ""⟩], [], []⟩⟩⟩

/-- An undecoded document handle whose content decodes (under `envP`) to a
document with a parent reference at uri `P`. -/
def d4 : DevfileObj := ⟨⟨"2.0.0", "withparent"⟩, DevfileData.empty⟩

/-- A document declaring two conflicting components named `x`. -/
def dDup : DevfileObj :=
  ⟨DevfileCtx.empty, ⟨none, ⟨[⟨"x", none, "1"⟩, ⟨"x", none, "2"⟩], [], []⟩⟩⟩

/-- An already-flat document: no parent, no plugin components, distinct
names. -/
def dFlat : DevfileObj :=
  ⟨DevfileCtx.empty, ⟨none, ⟨[⟨"c1", none, "x"⟩], [⟨"cmd1", "y"⟩], [⟨"p1", "", "z"⟩]⟩⟩⟩

/-! ## Properties of the merge -/

theorem insertItem_ok_props [DecidableEq α] {nameOf : α → String} {acc : List α} {x : α}
    {res : List α} (h : insertItem nameOf acc x = .ok res) :
    (∀ z ∈ acc, z ∈ res) ∧ x ∈ res := by
  unfold insertItem at h
  split at h
  case _ y hy =>
    split at h
    case isTrue heq =>
      cases h
      exact ⟨fun z hz => hz, heq ▸ List.mem_of_find?_eq_some hy⟩
    case isFalse => cases h
  case _ hy =>
    cases h
    exact ⟨fun z hz => List.mem_append_left _ hz, List.mem_append_right _ (List.mem_singleton.mpr rfl)⟩

theorem insertItem_ok_compat [DecidableEq α] {nameOf : α → String} {acc : List α} {x : α}
    {res : List α} (hacc : NamesCompatible nameOf acc)
    (h : insertItem nameOf acc x = .ok res) : NamesCompatible nameOf res := by
  unfold insertItem at h
  split at h
  case _ y hy =>
    split at h
    case isTrue heq => cases h; exact hacc
    case isFalse => cases h
  case _ hy =>
    cases h
    intro a ha b hb hname
    rw [List.mem_append] at ha hb
    have hnone := List.find?_eq_none.mp hy
    rcases ha with ha | ha <;> rcases hb with hb | hb
    · exact hacc a ha b hb hname
    · rw [List.mem_singleton] at hb; subst hb
      exact absurd (by simpa using hname) (by simpa using hnone a ha)
    · rw [List.mem_singleton] at ha; subst ha
      exact absurd (by simpa using hname.symm) (by simpa using hnone b hb)
    · rw [List.mem_singleton] at ha hb; rw [ha, hb]

theorem insertAll_ok_props [DecidableEq α] {nameOf : α → String} {xs acc res : List α}
    (h : insertAll nameOf acc xs = .ok res) (hacc : NamesCompatible nameOf acc) :
    NamesCompatible nameOf res ∧ ∀ z ∈ acc ++ xs, z ∈ res := by
  induction xs generalizing acc with
  | nil =>
    unfold insertAll at h
    cases h
    refine ⟨hacc, fun z hz => ?_⟩
    simpa using hz
  | cons x xs ih =>
    unfold insertAll at h
    split at h
    case _ => cases h
    case _ acc' hacc' =>
      obtain ⟨hsub, hx⟩ := insertItem_ok_props hacc'
      obtain ⟨hres, hmem⟩ := ih h (insertItem_ok_compat hacc hacc')
      refine ⟨hres, fun z hz => ?_⟩
      rw [List.mem_append, List.mem_cons] at hz
      rcases hz with hz | hz | hz
      · exact hmem z (List.mem_append_left _ (hsub z hz))
      · exact hz ▸ hmem x (List.mem_append_left _ hx)
      · exact hmem z (List.mem_append_right _ hz)

theorem insertAll_error_of_not_compat [DecidableEq α] (nameOf : α → String) {xs : List α}
    (h : ¬ NamesCompatible nameOf xs) : ∃ e, insertAll nameOf [] xs = .error e := by
  unfold NamesCompatible at h
  push_neg at h
  obtain ⟨a, ha, b, hb, hname, hne⟩ := h
  cases H : insertAll nameOf [] xs with
  | error e => exact ⟨e, rfl⟩
  | ok res =>
    obtain ⟨hcompat, hmem⟩ := insertAll_ok_props H (by intro z hz; simp at hz)
    exact absurd (hcompat a (hmem a (by simpa using ha)) b (hmem b (by simpa using hb)) hname) hne

theorem insertAll_ok_of_compat [DecidableEq α] (nameOf : α → String) (acc : List α)
    {xs : List α} (h : NamesCompatible nameOf (acc ++ xs)) :
    ∃ res, insertAll nameOf acc xs = .ok res := by
  induction xs generalizing acc with
  | nil => exact ⟨acc, rfl⟩
  | cons x xs ih =>
    have hstep : ∃ acc', insertItem nameOf acc x = .ok acc' ∧
        NamesCompatible nameOf (acc' ++ xs) := by
      unfold insertItem
      cases hy : acc.find? (fun y => nameOf y == nameOf x) with
      | some y =>
        have hyx : y = x := by
          refine h y (by simp [List.mem_of_find?_eq_some hy]) x (by simp) ?_
          simpa using List.find?_some hy
        refine ⟨acc, by simp [hyx], fun a ha b hb hname => ?_⟩
        refine h a ?_ b ?_ hname <;> simp_all <;> tauto
      | none =>
        refine ⟨acc ++ [x], rfl, fun a ha b hb hname => ?_⟩
        refine h a ?_ b ?_ hname <;> simp_all
    obtain ⟨acc', hacc', hcompat⟩ := hstep
    obtain ⟨res, hres⟩ := ih acc' hcompat
    exact ⟨res, by unfold insertAll; rw [hacc']; exact hres⟩

theorem insertAll_of_distinct [DecidableEq α] {nameOf : α → String} (acc : List α)
    {xs : List α} (h : NamesDistinct nameOf (acc ++ xs)) :
    insertAll nameOf acc xs = .ok (acc ++ xs) := by
  induction xs generalizing acc with
  | nil => simp [insertAll]
  | cons x xs ih =>
    have hnone : acc.find? (fun y => nameOf y == nameOf x) = none := by
      rw [List.find?_eq_none]
      intro y hy
      have := (List.pairwise_append.mp h).2.2 y hy x (by simp)
      simpa using this
    have hrec : insertAll nameOf (acc ++ [x]) xs = .ok ((acc ++ [x]) ++ xs) :=
      ih (acc ++ [x]) (by simpa using h)
    have hins : insertItem nameOf acc x = .ok (acc ++ [x]) := by
      unfold insertItem; rw [hnone]
    have hstep : insertAll nameOf acc (x :: xs) = insertAll nameOf (acc ++ [x]) xs := by
      conv_lhs => rw [insertAll]
      rw [hins]
    rw [hstep, hrec]
    simp

theorem merge_flat_id {ws : DevWorkspaceTemplateSpecContent}
    (hc : NamesDistinct Component.name ws.components)
    (hcmd : NamesDistinct Command.id ws.commands)
    (hp : NamesDistinct Project.name ws.projects) :
    MergeDevWorkspaceTemplateSpec ws DevWorkspaceTemplateSpecContent.empty [] = .ok ws := by
  have h1 : insertAll Component.name [] ws.components = .ok ws.components :=
    insertAll_of_distinct [] (by simpa using hc)
  have h2 : insertAll Command.id [] ws.commands = .ok ws.commands :=
    insertAll_of_distinct [] (by simpa using hcmd)
  have h3 : insertAll Project.name [] ws.projects = .ok ws.projects :=
    insertAll_of_distinct [] (by simpa using hp)
  unfold MergeDevWorkspaceTemplateSpec mergeLayers
  simp [DevWorkspaceTemplateSpecContent.empty, h1, h2, h3]

/-! ## Properties of the flattening step -/

theorem pluginLoopWith_no_plugins (fetch : FetchFn) {cs : List Component}
    (h : ∀ c ∈ cs, c.plugin = none) : pluginLoopWith fetch cs = some (.ok []) := by
  induction cs with
  | nil => rfl
  | cons c rest ih =>
    have hc := h c (by simp)
    unfold pluginLoopWith
    rw [hc]
    exact ih (fun c' hc' => h c' (by simp [hc']))

theorem parseParentAndPluginWith_error_preserves (fetch : FetchFn) (d : DevfileObj)
    (res : DevfileData) (e : GoErr)
    (h : parseParentAndPluginWith fetch d = some (res, some e)) : res = d.data := by
  simp only [parseParentAndPluginWith] at h
  repeat' split at h
  all_goals simp_all

theorem parseParentAndPluginWith_ok (fetch : FetchFn) (d : DevfileObj) (data' : DevfileData)
    (h : parseParentAndPluginWith fetch d = some (data', none)) :
    data'.parent = none ∧
      ∀ c ∈ d.data.workspace.components, c ∈ data'.workspace.components := by
  simp only [parseParentAndPluginWith] at h
  repeat' split at h
  all_goals try simp_all
  case h_3.h_3.h_2 =>
    rename_i parentStep fp loopRes tail resultStep result hparent hloop hmerge
    subst h
    refine ⟨rfl, fun c hc => ?_⟩
    unfold MergeDevWorkspaceTemplateSpec at hmerge
    repeat' split at hmerge
    all_goals cases hmerge
    case _ =>
      rename_i x1 cs hcs x2 cmds hcmds x3 ps hps
      have hmem := (insertAll_ok_props hcs (by intro z hz; simp at hz)).2
      exact hmem c (by
        simp only [mergeLayers, List.nil_append, List.mem_append]
        tauto)


theorem parseParentAndPluginWith_flat (fetch : FetchFn) (d : DevfileObj)
    (hpar : d.data.parent = none)
    (hplug : ∀ c ∈ d.data.workspace.components, c.plugin = none)
    (hc : NamesDistinct Component.name d.data.workspace.components)
    (hcmd : NamesDistinct Command.id d.data.workspace.commands)
    (hp : NamesDistinct Project.name d.data.workspace.projects) :
    parseParentAndPluginWith fetch d = some (d.data, none) := by
  have hdata : (⟨none, d.data.workspace⟩ : DevfileData) = d.data := by rw [← hpar]
  simp only [parseParentAndPluginWith, hpar, pluginLoopWith_no_plugins fetch hplug,
    merge_flat_id hc hcmd hp, hdata]

/-! ## The claims -/

/-- C6: flattening an already-flat document (no parent reference, no
Plugin-variant components) succeeds and returns its data unchanged: the
workspace content of components/commands/projects is identical before and
after.  The element names are pairwise distinct, which the data model
guarantees for well-formed documents. -/
theorem c6_flatten_already_flat_identity (fuel : Nat) (env : Env) (d : DevfileObj)
    (hpar : d.data.parent = none)
    (hplug : ∀ c ∈ d.data.workspace.components, c.plugin = none)
    (hc : NamesDistinct Component.name d.data.workspace.components)
    (hcmd : NamesDistinct Command.id d.data.workspace.commands)
    (hp : NamesDistinct Project.name d.data.workspace.projects) :
    parseParentAndPlugin fuel env d = some (d.data, none) :=
  parseParentAndPluginWith_flat (ParseFromURL fuel env) d hpar hplug hc hcmd hp

/-- Witness for C6 at a concrete flat document. -/
theorem c6_witness : parseParentAndPlugin 0 env0 dFlat = some (dFlat.data, none) :=
  c6_flatten_already_flat_identity 0 env0 dFlat (by decide) (by decide)
    (by unfold NamesDistinct; decide) (by unfold NamesDistinct; decide)
    (by unfold NamesDistinct; decide)

/-- C10: the flattening step is atomic — whenever `parseParentAndPlugin`
returns an error, the document data it leaves behind is exactly the data it
was given: the merged-content and cleared-parent writes happen only after
every fetch, override application and merge has succeeded. -/
theorem c10_error_leaves_document_unchanged (fuel : Nat) (env : Env) (d : DevfileObj)
    (res : DevfileData) (e : GoErr)
    (h : parseParentAndPlugin fuel env d = some (res, some e)) : res = d.data :=
  parseParentAndPluginWith_error_preserves (ParseFromURL fuel env) d res e h

/-- Witness for C10: a document with two conflicting components named `x`
fails to merge and the data is left untouched. -/
theorem c10_witness :
    parseParentAndPlugin 0 env0 dDup = some (dDup.data, some ("conflicting definition of x")) ∧
      dDup.data = dDup.data :=
  ⟨by decide,
   c10_error_leaves_document_unchanged 0 env0 dDup dDup.data "conflicting definition of x"
     (by decide)⟩

/-- C1 (counterexample): flattening `d1` under `envQ` succeeds, yet the
resulting data still contains the Plugin-variant component `x` — the plugin
component is not replaced by its expansion, so the flattened document is not
free of plugin references. -/
theorem c1_counterexample :
    parseParentAndPlugin 2 envQ d1 = some (flatData1, none) ∧
      ∃ c ∈ flatData1.workspace.components, c.plugin ≠ none := by
  refine ⟨by decide, ⟨⟨"x", some ⟨"", "Q", OverrideSet.empty⟩, ""⟩, by decide, by decide⟩⟩

/-- C1 (amended): whenever flattening succeeds the resulting data's parent is
nil, and every local component — the Plugin-variant ones included — is still
present in the merged component list (the plugin's expanded components are
merged in alongside it, not substituted for it). -/
theorem c1_flatten_clears_parent_keeps_plugins (fuel : Nat) (env : Env) (d : DevfileObj)
    (data' : DevfileData)
    (h : parseParentAndPlugin fuel env d = some (data', none)) :
    data'.parent = none ∧
      ∀ c ∈ d.data.workspace.components, c ∈ data'.workspace.components :=
  parseParentAndPluginWith_ok (ParseFromURL fuel env) d data' h

/-- Witness for the amended C1 at the concrete fixture. -/
theorem c1_witness :
    flatData1.parent = none ∧
      ∀ c ∈ d1.data.workspace.components, c ∈ flatData1.workspace.components :=
  c1_flatten_clears_parent_keeps_plugins 2 envQ d1 flatData1 (by decide)

/-- C3 (counterexample): a document with a non-default Plugin-variant
component whose uri is empty does not always flatten without error — when the
plugin carries overrides, they are applied to the empty content contributed by
the empty uri and fail on their unmatched key. -/
theorem c3_counterexample :
    parseParentAndPlugin 1 env0 d3 =
      some (d3.data, some "override key ghost does not match any element") := by
  decide

/-- C3 (amended): a non-default Plugin-variant component with an empty uri and
no overrides contributes an empty WorkspaceContent to the plugin layer list
and the loop continues without error; only the overrides of such a plugin can
fail. -/
theorem c3_empty_uri_plugin_contributes_empty (fuel : Nat) (env : Env)
    (c : Component) (p : PluginComponent) (rest : List Component)
    (h1 : c.plugin = some p) (h2 : p.uri = "") (h3 : p ≠ PluginComponent.empty)
    (h4 : p.pluginOverrides = OverrideSet.empty) :
    pluginLoop fuel env (c :: rest) =
      match pluginLoop fuel env rest with
      | none => none
      | some (.error e) => some (.error e)
      | some (.ok tail) => some (.ok (DevWorkspaceTemplateSpecContent.empty :: tail)) := by
  conv_lhs => unfold pluginLoop pluginLoopWith
  rw [h1]
  simp only [pluginLoop, h2, h3, h4, DevfileObj.empty, DevfileData.empty, ite_true, ite_false,
    if_neg, if_pos, ne_eq, not_false_iff]
  simp [h3]

/-- Witness for the amended C3: an id-only plugin (empty uri, no overrides)
contributes exactly one empty content layer. -/
theorem c3_witness :
    pluginLoop 0 env0 [⟨"x", some ⟨"someId", "", OverrideSet.empty⟩, ""⟩] =
      some (.ok [DevWorkspaceTemplateSpecContent.empty]) := by
  rw [c3_empty_uri_plugin_contributes_empty 0 env0 _ ⟨"someId", "", OverrideSet.empty⟩ []
    rfl rfl (by decide) rfl]
  rfl

/-- C4: whenever the flattening step fails, `parseDevfile` invoked with
flattening on discards the partially built document and returns the Go zero
`DevfileObj{}` together with the error. -/
theorem c4_flatten_failure_returns_zero_devfileobj (fuel : Nat) (env : Env) (d : DevfileObj)
    (data0 dataU dd : DevfileData) (e : GoErr)
    (hval : env.validate d.ctx = none)
    (hnew : env.newDevfileData d.ctx.apiVersion = .ok data0)
    (hunm : env.unmarshal d.ctx.devfileContent data0 = .ok dataU)
    (hpp : parseParentAndPlugin fuel env { d with data := dataU } = some (dd, some e)) :
    parseDevfile fuel env d true = some (DevfileObj.empty, some e) := by
  unfold parseParentAndPlugin at hpp
  unfold parseDevfile parseDevfileWith
  rw [hval]
  dsimp only
  rw [hnew]
  dsimp only
  rw [hunm]
  dsimp only
  rw [hpp]
  rfl

/-- Witness for C4: the parent reference of `d4` cannot be fetched under
`envP`, so the parse returns the zero document and the fetch error. -/
theorem c4_witness : parseDevfile 1 envP d4 true = some (DevfileObj.empty, some "fetch failed") :=
  c4_flatten_failure_returns_zero_devfileobj 1 envP d4 DevfileData.empty
    ⟨some ⟨"P", OverrideSet.empty⟩, DevWorkspaceTemplateSpecContent.empty⟩
    ⟨some ⟨"P", OverrideSet.empty⟩, DevWorkspaceTemplateSpecContent.empty⟩
    "fetch failed" rfl rfl rfl (by decide)

theorem activePlugins_cons (c : Component) (rest : List Component) :
    activePlugins (c :: rest) =
      match c.plugin with
      | none => activePlugins rest
      | some p =>
        if p = PluginComponent.empty then activePlugins rest else p :: activePlugins rest := by
  unfold activePlugins
  rw [List.filterMap_cons]
  cases c.plugin with
  | none => rfl
  | some p => by_cases hp : p = PluginComponent.empty <;> simp [hp]

theorem resolvePluginRef_empty_uri (fetch : FetchFn) (p : PluginComponent) (h : p.uri = "") :
    resolvePluginRef fetch p =
      some (if p.pluginOverrides ≠ OverrideSet.empty then
          OverrideDevWorkspaceTemplateSpec DevfileObj.empty.data.workspace p.pluginOverrides
        else .ok DevfileObj.empty.data.workspace) := by
  unfold resolvePluginRef
  rw [if_neg (by simp [h])]

theorem resolvePluginRef_fetch_none (fetch : FetchFn) (p : PluginComponent)
    (h : p.uri ≠ "") (hf : fetch p.uri = none) : resolvePluginRef fetch p = none := by
  unfold resolvePluginRef
  rw [if_pos h, hf]

theorem resolvePluginRef_fetch_err (fetch : FetchFn) (p : PluginComponent)
    (pd : DevfileObj) (e : GoErr) (h : p.uri ≠ "") (hf : fetch p.uri = some (pd, some e)) :
    resolvePluginRef fetch p = some (.error e) := by
  unfold resolvePluginRef
  rw [if_pos h, hf]

theorem resolvePluginRef_fetch_ok (fetch : FetchFn) (p : PluginComponent)
    (pd : DevfileObj) (h : p.uri ≠ "") (hf : fetch p.uri = some (pd, none)) :
    resolvePluginRef fetch p =
      some (if p.pluginOverrides ≠ OverrideSet.empty then
          OverrideDevWorkspaceTemplateSpec pd.data.workspace p.pluginOverrides
        else .ok pd.data.workspace) := by
  unfold resolvePluginRef
  rw [if_pos h, hf]

theorem pluginLoopWith_eq_specPluginLayers (fetch : FetchFn) (cs : List Component) :
    pluginLoopWith fetch cs = specPluginLayers fetch (activePlugins cs) := by
  induction cs with
  | nil => rfl
  | cons c rest ih =>
    have hcons := activePlugins_cons c rest
    cases hc : c.plugin with
    | none =>
      rw [hc] at hcons
      dsimp only at hcons
      conv_lhs => unfold pluginLoopWith; rw [hc]
      rw [hcons]
      exact ih
    | some p =>
      rw [hc] at hcons
      dsimp only at hcons
      by_cases hp : p = PluginComponent.empty
      · rw [if_pos hp] at hcons
        conv_lhs => unfold pluginLoopWith; rw [hc]
        rw [hcons]
        dsimp only
        rw [if_neg (by simpa using hp)]
        exact ih
      · rw [if_neg hp] at hcons
        rw [hcons]
        conv_lhs => unfold pluginLoopWith; rw [hc]
        conv_rhs => unfold specPluginLayers
        dsimp only
        rw [if_pos (by simpa using hp)]
        by_cases huri : p.uri = ""
        · rw [resolvePluginRef_empty_uri fetch p huri,
            if_neg (show ¬ p.uri ≠ "" by simp [huri])]
          dsimp only
          cases hov : (if p.pluginOverrides ≠ OverrideSet.empty then
              OverrideDevWorkspaceTemplateSpec DevfileObj.empty.data.workspace p.pluginOverrides
            else .ok DevfileObj.empty.data.workspace) with
          | error e => rfl
          | ok content =>
            dsimp only
            rw [ih]
        · cases hfetch : fetch p.uri with
          | none => rw [resolvePluginRef_fetch_none fetch p huri hfetch, if_pos huri]
          | some pr =>
            obtain ⟨pd, oe⟩ := pr
            cases oe with
            | some e =>
              rw [resolvePluginRef_fetch_err fetch p pd e huri hfetch, if_pos huri]
            | none =>
              rw [resolvePluginRef_fetch_ok fetch p pd huri hfetch, if_pos huri]
              dsimp only
              cases hov : (if p.pluginOverrides ≠ OverrideSet.empty then
                  OverrideDevWorkspaceTemplateSpec pd.data.workspace p.pluginOverrides
                else .ok pd.data.workspace) with
              | error e => rfl
              | ok content =>
                dsimp only
                rw [ih]

/-- C5: the plugin loop resolves exactly the non-default Plugin-variant
components, in declaration order: it equals fetching and fully resolving each
such plugin's uri (when non-empty), applying that plugin's own overrides when
present, and collecting the results into the ordered plugin layer list,
aborting on the first failure. -/
theorem c5_plugin_layers_in_declaration_order (fuel : Nat) (env : Env) (cs : List Component) :
    pluginLoop fuel env cs = specPluginLayers (ParseFromURL fuel env) (activePlugins cs) :=
  pluginLoopWith_eq_specPluginLayers (ParseFromURL fuel env) cs

theorem parseDevfileWith_false (env : Env) (fetch fetch' : FetchFn) (d : DevfileObj) :
    parseDevfileWith env fetch d false = parseDevfileWith env fetch' d false := rfl

/-- C7: parsing in raw mode never attempts any parent or plugin fetch: the
result does not depend on the url fetcher at all, nor on the recursion budget,
and on success the document is returned with its decoded data — parent
reference and plugin components — intact.  `ParseRawDevfile` end-to-end is
likewise independent of the url fetcher. -/
theorem c7_raw_mode_never_fetches (env : Env) (f : String → Except GoErr DevfileCtx)
    (fuel fuel' : Nat) (d : DevfileObj) :
    (parseDevfile fuel { env with populateFromURL := f } d false = parseDevfile fuel env d false)
  ∧ (parseDevfile fuel env d false = parseDevfile fuel' env d false)
  ∧ (∀ data0 dataU : DevfileData, env.validate d.ctx = none →
      env.newDevfileData d.ctx.apiVersion = .ok data0 →
      env.unmarshal d.ctx.devfileContent data0 = .ok dataU →
      parseDevfile fuel env d false = some ({ d with data := dataU }, none))
  ∧ (∀ path : String, ParseRawDevfile fuel { env with populateFromURL := f } path =
      ParseRawDevfile fuel env path) := by
  refine ⟨?_, ?_, ?_, ?_⟩
  · exact parseDevfileWith_false env
      (ParseFromURL fuel { env with populateFromURL := f }) (ParseFromURL fuel env) d
  · exact parseDevfileWith_false env (ParseFromURL fuel env) (ParseFromURL fuel' env) d
  · intro data0 dataU hval hnew hunm
    unfold parseDevfile parseDevfileWith
    rw [hval]
    dsimp only
    rw [hnew]
    dsimp only
    rw [hunm]
    rfl
  · intro path
    unfold ParseRawDevfile
    dsimp only
    cases hpop : env.populate path with
    | error e => rfl
    | ok ctx =>
      exact parseDevfileWith_false env
        (ParseFromURL fuel { env with populateFromURL := f }) (ParseFromURL fuel env) _

/-- Witness for C7 at a concrete environment and document. -/
theorem c7_witness :
    (parseDevfile 3 { env0 with populateFromURL := fun _ => .ok ⟨"v", "c"⟩ } dFlat false =
      parseDevfile 3 env0 dFlat false)
  ∧ (parseDevfile 3 env0 dFlat false = some ({ dFlat with data := DevfileData.empty }, none)) := by
  obtain ⟨h1, _, h3, _⟩ := c7_raw_mode_never_fetches env0 (fun _ => .ok ⟨"v", "c"⟩) 3 7 dFlat
  exact ⟨h1, h3 DevfileData.empty DevfileData.empty rfl rfl rfl⟩

/-- C8: the sync-folder computation rejects a first project whose clonePath
starts with "/" and one whose clonePath contains "..", each with an error
naming the offending project; the valid clonePath "src" under source root
"/projects" yields sync path "/projects/src"; an absent clonePath yields the
source root joined with the project name. -/
theorem c8_sync_folder_computation (container : Container) (root : String)
    (p : Project) (ps : List Project) :
    (goHasPrefix p.clonePath "/" = true →
      addSyncFolder container root (p :: ps) =
        .error ("the clonePath " ++ p.clonePath ++ " in the devfile project " ++ p.name ++
          " must be a relative path"))
  ∧ (goHasPrefix p.clonePath "/" = false → goStringsContains p.clonePath ".." = true →
      p.clonePath ≠ "" →
      addSyncFolder container root (p :: ps) =
        .error ("the clonePath " ++ p.clonePath ++ " in the devfile project " ++ p.name ++
          " cannot escape the value defined by $PROJECTS_ROOT. Please avoid using \"..\" in clonePath"))
  ∧ (addSyncFolder container "/projects" [⟨"myproj", "src", ""⟩] =
      .ok { container with env := container.env ++ [⟨EnvProjectsSrc, "/projects/src"⟩] })
  ∧ (p.clonePath = "" →
      addSyncFolder container root (p :: ps) =
        .ok { container with
          env := container.env ++ [⟨EnvProjectsSrc, goFilepathJoin [root, p.name]⟩] }) := by
  refine ⟨?_, ?_, rfl, ?_⟩
  · intro h1
    have hne : p.clonePath ≠ "" := by
      intro hc
      rw [hc] at h1
      exact absurd h1 (by decide)
    unfold addSyncFolder
    simp [h1, hne]
  · intro h1 h2 hne
    unfold addSyncFolder
    simp [h1, h2, hne]
  · intro h4
    unfold addSyncFolder
    simp [h4]

/-- Witness for C8 exercising all four parts at concrete projects. -/
theorem c8_witness :
    (addSyncFolder ⟨[]⟩ "/projects" [⟨"myproj", "/abs/path", ""⟩] =
      .error "the clonePath /abs/path in the devfile project myproj must be a relative path")
  ∧ (addSyncFolder ⟨[]⟩ "/projects" [⟨"myproj", "a/../b", ""⟩] =
      .error "the clonePath a/../b in the devfile project myproj cannot escape the value defined by $PROJECTS_ROOT. Please avoid using \"..\" in clonePath")
  ∧ (addSyncFolder ⟨[]⟩ "/projects" [⟨"myproj", "src", ""⟩] =
      .ok ⟨[⟨EnvProjectsSrc, "/projects/src"⟩]⟩)
  ∧ (addSyncFolder ⟨[]⟩ "/projects" [⟨"myproj", "", ""⟩] =
      .ok ⟨[⟨EnvProjectsSrc, "/projects/myproj"⟩]⟩) :=
  ⟨(c8_sync_folder_computation ⟨[]⟩ "/projects" ⟨"myproj", "/abs/path", ""⟩ []).1 (by decide),
   (c8_sync_folder_computation ⟨[]⟩ "/projects" ⟨"myproj", "a/../b", ""⟩ []).2.1
     (by decide) (by decide) (by decide),
   (c8_sync_folder_computation ⟨[]⟩ "/projects" ⟨"myproj", "src", ""⟩ []).2.2.1,
   (c8_sync_folder_computation ⟨[]⟩ "/projects" ⟨"myproj", "", ""⟩ []).2.2.2 rfl⟩

/-- C2: the merge policy is uniform for all name collisions.  The adopted
policy is the conflict-error one: the merge fails exactly when some pair of
layers (parent, plugins, local — any pair, and any of the three element kinds)
defines the same name with different content; when no such conflict exists —
exact duplicates included — the merge succeeds. -/
theorem c2_merge_conflict_policy_uniform (localC parentC : DevWorkspaceTemplateSpecContent)
    (plugins : List DevWorkspaceTemplateSpecContent) :
    ((¬ NamesCompatible Component.name
        (mergeLayers localC parentC plugins (fun c => c.components)) ∨
      ¬ NamesCompatible Command.id (mergeLayers localC parentC plugins (fun c => c.commands)) ∨
      ¬ NamesCompatible Project.name (mergeLayers localC parentC plugins (fun c => c.projects))) →
      ∃ e, MergeDevWorkspaceTemplateSpec localC parentC plugins = .error e)
  ∧ ((NamesCompatible Component.name
        (mergeLayers localC parentC plugins (fun c => c.components)) ∧
      NamesCompatible Command.id (mergeLayers localC parentC plugins (fun c => c.commands)) ∧
      NamesCompatible Project.name (mergeLayers localC parentC plugins (fun c => c.projects))) →
      ∃ res, MergeDevWorkspaceTemplateSpec localC parentC plugins = .ok res) := by
  constructor
  · intro h
    unfold MergeDevWorkspaceTemplateSpec
    cases hc : insertAll Component.name []
        (mergeLayers localC parentC plugins fun c => c.components) with
    | error e => exact ⟨e, rfl⟩
    | ok cs =>
      cases hcmd : insertAll Command.id []
          (mergeLayers localC parentC plugins fun c => c.commands) with
      | error e => exact ⟨e, rfl⟩
      | ok cmds =>
        cases hp : insertAll Project.name []
            (mergeLayers localC parentC plugins fun c => c.projects) with
        | error e => exact ⟨e, rfl⟩
        | ok ps =>
          exfalso
          rcases h with h | h | h
          · obtain ⟨e, he⟩ := insertAll_error_of_not_compat Component.name h
            rw [he] at hc; cases hc
          · obtain ⟨e, he⟩ := insertAll_error_of_not_compat Command.id h
            rw [he] at hcmd; cases hcmd
          · obtain ⟨e, he⟩ := insertAll_error_of_not_compat Project.name h
            rw [he] at hp; cases hp
  · intro ⟨h1, h2, h3⟩
    obtain ⟨cs, hcs⟩ := insertAll_ok_of_compat Component.name [] (by simpa using h1)
    obtain ⟨cmds, hcmds⟩ := insertAll_ok_of_compat Command.id [] (by simpa using h2)
    obtain ⟨ps, hps⟩ := insertAll_ok_of_compat Project.name [] (by simpa using h3)
    refine ⟨⟨cs, cmds, ps⟩, ?_⟩
    unfold MergeDevWorkspaceTemplateSpec
    rw [hcs]
    dsimp only
    rw [hcmds]
    dsimp only
    rw [hps]

/-- Witness for C2: two same-named components with different content make the
merge fail; without the conflict the merge succeeds. -/
theorem c2_witness :
    (∃ e, MergeDevWorkspaceTemplateSpec ⟨[⟨"x", none, "1"⟩, ⟨"x", none, "2"⟩], [], []⟩
        DevWorkspaceTemplateSpecContent.empty [] = .error e)
  ∧ (∃ res, MergeDevWorkspaceTemplateSpec ⟨[⟨"x", none, "1"⟩], [], []⟩
        DevWorkspaceTemplateSpecContent.empty [] = .ok res) :=
  ⟨(c2_merge_conflict_policy_uniform ⟨[⟨"x", none, "1"⟩, ⟨"x", none, "2"⟩], [], []⟩
      DevWorkspaceTemplateSpecContent.empty []).1
      (Or.inl (by unfold NamesCompatible; decide)),
   (c2_merge_conflict_policy_uniform ⟨[⟨"x", none, "1"⟩], [], []⟩
      DevWorkspaceTemplateSpecContent.empty []).2
      ⟨by unfold NamesCompatible; decide, by unfold NamesCompatible; decide,
       by unfold NamesCompatible; decide⟩⟩

theorem pluginRefs_cons (c : Component) (rest : List Component) :
    pluginRefs (c :: rest) =
      match c.plugin with
      | none => pluginRefs rest
      | some p =>
        if p ≠ PluginComponent.empty ∧ p.uri ≠ "" then p.uri :: pluginRefs rest
        else pluginRefs rest := by
  unfold pluginRefs
  rw [List.filterMap_cons]
  cases c.plugin with
  | none => rfl
  | some p =>
    by_cases h : p ≠ PluginComponent.empty ∧ p.uri ≠ "" <;> simp [h]

theorem pluginRefs_subset (c : Component) (rest : List Component) :
    ∀ u ∈ pluginRefs rest, u ∈ pluginRefs (c :: rest) := by
  intro u hu
  rw [pluginRefs_cons]
  cases c.plugin with
  | none => exact hu
  | some p =>
    dsimp only
    by_cases h : p ≠ PluginComponent.empty ∧ p.uri ≠ ""
    · rw [if_pos h]; exact List.mem_cons_of_mem _ hu
    · rw [if_neg h]; exact hu

theorem fetch_isSome_of_fetchDecode (env : Env) (u : String) (m : Nat)
    (H : ∀ du, fetchDecode env u = some du → ∀ ctx : DevfileCtx,
      (parseParentAndPluginWith (ParseFromURL m env) ⟨ctx, du⟩).isSome) :
    (ParseFromURL (m + 1) env u).isSome := by
  unfold ParseFromURL
  cases hpop : env.populateFromURL u with
  | error e => simp
  | ok ctx =>
    unfold parseDevfileWith
    dsimp only
    cases hval : env.validate ctx with
    | some e => simp
    | none =>
      cases hnew : env.newDevfileData ctx.apiVersion with
      | error e => simp
      | ok d0 =>
        cases hunm : env.unmarshal ctx.devfileContent d0 with
        | error e => simp [hunm]
        | ok du =>
          have hfd : fetchDecode env u = some du := by
            unfold fetchDecode
            rw [hpop]
            dsimp only
            rw [hval]
            dsimp only
            rw [hnew]
            dsimp only
            rw [hunm]
          have hS := H du hfd ctx
          cases hpp : parseParentAndPluginWith (ParseFromURL m env) ⟨ctx, du⟩ with
          | none => rw [hpp] at hS; simp at hS
          | some pr =>
            obtain ⟨dd, oe⟩ := pr
            cases oe <;> simp [hunm, hpp]

theorem loop_isSome (fetch : FetchFn) (cs : List Component)
    (H : ∀ u ∈ pluginRefs cs, (fetch u).isSome) :
    (pluginLoopWith fetch cs).isSome := by
  induction cs with
  | nil => simp [pluginLoopWith]
  | cons c rest ih =>
    have ihrest := ih (fun u hu => H u (pluginRefs_subset c rest u hu))
    unfold pluginLoopWith
    cases hc : c.plugin with
    | none => exact ihrest
    | some p =>
      dsimp only
      by_cases hp : p = PluginComponent.empty
      · rw [if_neg (show ¬ p ≠ PluginComponent.empty from fun h => h hp)]
        exact ihrest
      · rw [if_pos hp]
        by_cases huri : p.uri = ""
        · rw [if_neg (show ¬ p.uri ≠ "" by simp [huri])]
          dsimp only
          cases hov : (if p.pluginOverrides ≠ OverrideSet.empty then
              OverrideDevWorkspaceTemplateSpec DevfileObj.empty.data.workspace p.pluginOverrides
            else .ok DevfileObj.empty.data.workspace) with
          | error e => simp
          | ok result =>
            dsimp only
            cases hloop : pluginLoopWith fetch rest with
            | none => rw [hloop] at ihrest; simp at ihrest
            | some lr => cases lr <;> simp
        · rw [if_pos huri]
          have hu : p.uri ∈ pluginRefs (c :: rest) := by
            rw [pluginRefs_cons, hc]
            dsimp only
            rw [if_pos ⟨hp, huri⟩]
            exact List.mem_cons_self _ _
          have hf := H p.uri hu
          cases hfetch : fetch p.uri with
          | none => rw [hfetch] at hf; simp at hf
          | some pr =>
            obtain ⟨pd, oe⟩ := pr
            cases oe with
            | some e => simp
            | none =>
              dsimp only
              cases hov : (if p.pluginOverrides ≠ OverrideSet.empty then
                  OverrideDevWorkspaceTemplateSpec pd.data.workspace p.pluginOverrides
                else .ok pd.data.workspace) with
              | error e => simp
              | ok result =>
                dsimp only
                cases hloop : pluginLoopWith fetch rest with
                | none => rw [hloop] at ihrest; simp at ihrest
                | some lr => cases lr <;> simp

theorem tail_isSome (fetch : FetchFn) (data : DevfileData)
    (fp : DevWorkspaceTemplateSpecContent)
    (hloopS : (pluginLoopWith fetch data.workspace.components).isSome) :
    (match pluginLoopWith fetch data.workspace.components with
      | none => none
      | some (.error e) => some (data, some e)
      | some (.ok plugins) =>
        match MergeDevWorkspaceTemplateSpec data.workspace fp plugins with
        | .error e => some (data, some e)
        | .ok mergedContent =>
          some ((⟨none, mergedContent⟩ : DevfileData), none)).isSome := by
  cases hloop : pluginLoopWith fetch data.workspace.components with
  | none => rw [hloop] at hloopS; simp at hloopS
  | some lr =>
    cases lr with
    | error e => simp
    | ok plugins =>
      dsimp only
      cases MergeDevWorkspaceTemplateSpec data.workspace fp plugins <;> simp

theorem resolvesWithin_isSome {env : Env} {data : DevfileData} {n : Nat}
    (h : ResolvesWithin env data n) :
    ∀ fuel, n ≤ fuel → ∀ ctx : DevfileCtx,
      (parseParentAndPluginWith (ParseFromURL fuel env) ⟨ctx, data⟩).isSome := by
  induction h with
  | @step data n hsub ih =>
    intro fuel hfuel ctx
    obtain ⟨m, rfl⟩ : ∃ m, fuel = m + 1 := ⟨fuel - 1, by omega⟩
    have hm : n ≤ m := by omega
    have hurl : ∀ u ∈ refURIs data, (ParseFromURL (m + 1) env u).isSome := by
      intro u hu
      exact fetch_isSome_of_fetchDecode env u m (fun du hdu ctx' => ih u hu du hdu m hm ctx')
    have hloopS : (pluginLoopWith (ParseFromURL (m + 1) env) data.workspace.components).isSome :=
      loop_isSome _ _ (fun u hu => hurl u (by unfold refURIs; exact List.mem_append_right _ hu))
    unfold parseParentAndPluginWith
    dsimp only
    cases hpar : data.parent with
    | none => exact tail_isSome _ data DevWorkspaceTemplateSpecContent.empty hloopS
    | some parent =>
      dsimp only
      by_cases hcond : parent ≠ Parent.empty ∧ parent.uri ≠ ""
      · rw [if_pos hcond]
        have hu : parent.uri ∈ refURIs data := by
          unfold refURIs parentRefs
          rw [hpar]
          dsimp only
          rw [if_pos hcond]
          exact List.mem_append_left _ (List.mem_cons_self _ _)
        have hfS := hurl parent.uri hu
        cases hfetch : ParseFromURL (m + 1) env parent.uri with
        | none => rw [hfetch] at hfS; simp at hfS
        | some pr =>
          obtain ⟨pd, oe⟩ := pr
          cases oe with
          | some e => simp
          | none =>
            dsimp only
            by_cases hovd : parent.parentOverrides ≠ OverrideSet.empty
            · rw [if_pos hovd]
              cases hov : OverrideDevWorkspaceTemplateSpec pd.data.workspace
                  parent.parentOverrides with
              | error e => simp
              | ok fp => exact tail_isSome _ data fp hloopS
            · rw [if_neg hovd]
              exact tail_isSome _ data pd.data.workspace hloopS
      · rw [if_neg hcond]
        exact tail_isSome _ data DevWorkspaceTemplateSpecContent.empty hloopS

theorem cyc_fetch_none (m : Nat) (ih : ∀ ctx : DevfileCtx,
    parseParentAndPluginWith (ParseFromURL m cycEnv) ⟨ctx, cycData⟩ = none) :
    ParseFromURL (m + 1) cycEnv "A" = none := by
  show parseDevfileWith cycEnv (ParseFromURL m cycEnv) ⟨⟨"2.0.0", "cyc"⟩, DevfileData.empty⟩
      true = none
  unfold parseDevfileWith
  dsimp only
  rw [show cycEnv.validate ⟨"2.0.0", "cyc"⟩ = none from rfl]
  dsimp only
  rw [show cycEnv.newDevfileData "2.0.0" = .ok DevfileData.empty from rfl]
  dsimp only
  rw [show cycEnv.unmarshal "cyc" DevfileData.empty = .ok cycData from rfl]
  dsimp only
  rw [ih ⟨"2.0.0", "cyc"⟩]
  rfl

theorem cyc_diverges : ∀ (fuel : Nat) (ctx : DevfileCtx),
    parseParentAndPluginWith (ParseFromURL fuel cycEnv) ⟨ctx, cycData⟩ = none := by
  intro fuel
  induction fuel with
  | zero => intro ctx; rfl
  | succ m ih =>
    intro ctx
    unfold parseParentAndPluginWith
    dsimp only [cycData]
    rw [if_pos (by decide : (⟨"A", OverrideSet.empty⟩ : Parent) ≠ Parent.empty ∧
      ("A" : String) ≠ "")]
    rw [cyc_fetch_none m ih]

/-- C9: resolution recursion is bounded only by the input's reference
structure.  First part: for every environment and document whose reference
graph is acyclic with depth at most `n`, any recursion budget of at least `n`
suffices — the flattening step terminates with an answer.  Second part: the
engine has no depth bound or cycle detection of its own — on a cyclic parent
reference (uri `A` serving a document whose parent is `A`), the flattening
step exhausts every recursion budget without producing an answer. -/
theorem c9_recursion_bounded_by_reference_depth :
    (∀ (env : Env) (data : DevfileData) (n fuel : Nat) (ctx : DevfileCtx),
        ResolvesWithin env data n → n ≤ fuel →
        (parseParentAndPlugin fuel env ⟨ctx, data⟩).isSome)
  ∧ (∀ (fuel : Nat) (ctx : DevfileCtx),
        parseParentAndPlugin fuel cycEnv ⟨ctx, cycData⟩ = none) :=
  ⟨fun _ _ _ fuel ctx h hle => resolvesWithin_isSome h fuel hle ctx,
   fun fuel ctx => cyc_diverges fuel ctx⟩

/-- Witness for C9: a reference-free document resolves within depth 1 at fuel
1; the cyclic fixture exhausts a concrete budget of 4. -/
theorem c9_witness :
    (parseParentAndPlugin 1 env0 ⟨DevfileCtx.empty, DevfileData.empty⟩).isSome
  ∧ parseParentAndPlugin 4 cycEnv ⟨DevfileCtx.empty, cycData⟩ = none :=
  ⟨c9_recursion_bounded_by_reference_depth.1 env0 DevfileData.empty 1 1 DevfileCtx.empty
      (ResolvesWithin.step (fun u hu => absurd hu (List.not_mem_nil u))) (le_refl 1),
   c9_recursion_bounded_by_reference_depth.2 4 DevfileCtx.empty⟩

end Devfile
